import Mathlib

/-!
Verification of the gssh command (github.com/corverroos/gssh).

gssh is a wrapper around `gcloud compute ssh`: it lists VM instances,
filters them by name, lets the user pick one (remembering the previous
selection in `$HOME/.gssh.json`) and hands off to `gcloud compute ssh`.

This file shallowly embeds the pure selection, filtering and persistence
logic of `main.go`, together with the older prefix-filter variant of the
program, and proves the testable properties of the specification against
that embedding.  External collaborators (the `gcloud` subprocesses, the
regexp engine, the interactive selector, the file system) are modelled by
an environment record holding their results; the events the program would
trigger are collected in a trace so that "collaborator X is never invoked"
claims can be stated.
-/

namespace Gssh

/-- a gcloud compute instance (main.go `type instance struct`): a name and a
zone resource path. -/
structure Instance where
  Name : String
  Zone : String
  deriving DecidableEq

/-- models Go `filepath.Base` on unix paths: empty path gives ".", trailing
slashes are stripped, then everything up to the last slash is dropped; an
all-slash path gives "/". -/
def filepathBase (p : String) : String :=
  if p = "" then "."
  else
    let t := p.dropRightWhile (fun c => c = '/')
    let base := (t.splitOn "/").getLastD ""
    if base = "" then "/" else base

/-- main.go `instance.TrimZone`: the trailing path segment of the zone. -/
def Instance.TrimZone (i : Instance) : String :=
  filepathBase i.Zone

/-- a compiled regular expression, modelled abstractly: `pattern` is the
source text (what Go `regexp.Regexp.String()` returns) and `matchString`
the `MatchString` predicate of the compiled expression. -/
structure Regexp where
  pattern : String
  matchString : String → Bool

/-- main.go `filterInstances`: keep the instances whose name matches the
regex; an empty pattern returns the input unchanged. -/
def filterInstances (instances : List Instance) (regex : Regexp) : List Instance :=
  if regex.pattern = "" then instances
  else instances.filter (fun inst => regex.matchString inst.Name)

/-- names of instances, in order. -/
def namesOf (l : List Instance) : List String :=
  l.map (fun i => i.Name)

/-- the list is sorted ascending by name (case-sensitive lexical order,
which for UTF-8 strings agrees with Go byte-wise `<` on names). -/
def SortedByName (l : List Instance) : Prop :=
  List.Pairwise (fun a b => a.Name ≤ b.Name) l

/-- the documented contract of main.go `sortInstances` (which calls Go
`sort.Slice` with `Name <` as the comparison): the output is a permutation
of the input that is sorted by name.  `sort.Slice` is documented as NOT
guaranteeing stability, so nothing beyond this contract is promised. -/
def SortSliceRel (input output : List Instance) : Prop :=
  output.Perm input ∧ SortedByName output

/-- equal-named instances keep their original relative order: for every
name, the sublist of instances carrying it is unchanged. -/
def StableByName (input output : List Instance) : Prop :=
  ∀ n : String, output.filter (fun i => i.Name == n) = input.filter (fun i => i.Name == n)

/-- the cursor loop of main.go `selectInstance`: walk the instances with
index `i`, remembering the index of the (last) instance whose name equals
the previous instance's name; `c` is the cursor accumulator. -/
def selectCursorAux (p : String) : List Instance → Nat → Nat → Nat
  | [], _, c => c
  | inst :: rest, i, c =>
      selectCursorAux p rest (i + 1) (if inst.Name = p then i else c)

/-- the initial cursor position main.go `selectInstance` hands to the
interactive selector: index of the candidate named like `prev`, else 0. -/
def selectCursor (instances : List Instance) (prev : Instance) : Nat :=
  selectCursorAux prev.Name instances 0 0

/-- Go `fmt.Sprintf "%-40s"`: left-justify to width 40. -/
def padTo40 (s : String) : String :=
  s ++ String.mk (List.replicate (40 - s.length) ' ')

/-- the label main.go `selectInstance` shows per instance: padded name
followed by the short zone. -/
def instanceLabel (inst : Instance) : String :=
  padTo40 inst.Name ++ inst.TrimZone

/-- the argument vector of the final `gcloud compute ssh` handoff
(main.go `run`, command construction): zone flag and host, plus a literal
"--" and the residual arguments joined with single spaces when any residual
arguments were given. -/
def sshCmds (zone host : String) (args : List String) : List String :=
  let cmds := ["gcloud", "compute", "ssh", "--zone=" ++ zone, host]
  if args.length > 0 then cmds ++ ["--", String.intercalate " " args] else cmds

/-- the fatal message main.go `run` produces when filtering leaves no
instances; it names the filter when the filter is non-empty. -/
def noVMsMsg (filter : String) : String :=
  if filter ≠ "" then "no VMs found for filter '" ++ filter ++ "'"
  else "no VMs found"

/-- `sub` occurs as a substring of `s`. -/
def ContainsStr (s sub : String) : Prop :=
  ∃ a b : String, s = a ++ sub ++ b

/-- a JSON value (enough structure for the gssh config file). -/
inductive Json where
  | null
  | bool (b : Bool)
  | num (n : Int)
  | str (s : String)
  | arr (elems : List Json)
  | obj (fields : List (String × Json))

/-- the gssh config file format (main.go `type config struct`), whose only
field `Previous` is serialised under the JSON key "previous". -/
structure Config where
  Previous : Instance
  deriving DecidableEq

/-- Go `encoding/json` marshalling of an `instance` value. -/
def instanceToJson (i : Instance) : Json :=
  .obj [("Name", .str i.Name), ("Zone", .str i.Zone)]

/-- Go `encoding/json` marshalling of a `config` value. -/
def configToJson (c : Config) : Json :=
  .obj [("previous", instanceToJson c.Previous)]

/-- JSON object field lookup; as in Go, a duplicated key is resolved to the
last occurrence. -/
def jsonLookup (fields : List (String × Json)) (key : String) : Option Json :=
  fields.foldl (fun acc kv => if kv.fst = key then some kv.snd else acc) none

/-- unmarshalling a Go string field: a JSON string is taken as is, JSON null
leaves the zero value, anything else is an unmarshal error. -/
def jsonGetString : Json → Option String
  | .str s => some s
  | .null => some ""
  | _ => none

/-- unmarshalling one named string field of a struct: a missing key leaves
the zero value. -/
def jsonField (fields : List (String × Json)) (key : String) : Option String :=
  match jsonLookup fields key with
  | none => some ""
  | some j => jsonGetString j

/-- Go `encoding/json` unmarshalling into an `instance`. -/
def jsonToInstance : Json → Option Instance
  | .null => some ⟨"", ""⟩
  | .obj fields => do
      let n ← jsonField fields "Name"
      let z ← jsonField fields "Zone"
      pure ⟨n, z⟩
  | _ => none

/-- Go `encoding/json` unmarshalling into a `config`. -/
def jsonToConfig : Json → Option Config
  | .null => some ⟨⟨"", ""⟩⟩
  | .obj fields =>
      match jsonLookup fields "previous" with
      | none => some ⟨⟨"", ""⟩⟩
      | some j => (jsonToInstance j).map Config.mk
  | _ => none

/-- content of the config file on disk: absent, unreadable, unparseable
bytes, or a parsed JSON document. -/
inductive FileData where
  | absent
  | readError (msg : String)
  | corrupt
  | json (j : Json)

/-- the pieces of the machine state the persistence code touches: the HOME
environment variable, the content at `$HOME/.gssh.json`, and whether a
write to that path would fail. -/
structure FS where
  home : Option String
  gsshFile : FileData
  writeErr : Option String

/-- main.go `configPath`: the config file path, or none when HOME is not
present. -/
def configPath (fs : FS) : Option String :=
  fs.home.map (fun h => h ++ "/.gssh.json")

/-- main.go `loadConfig`: missing HOME is an error, an absent file yields
the zero config, unreadable or unparseable content is an error. -/
def loadConfig (fs : FS) : Except String Config :=
  match configPath fs with
  | none => .error "HOME env var not present, cannot read config"
  | some _filename =>
      match fs.gsshFile with
      | .absent => .ok ⟨⟨"", ""⟩⟩
      | .readError e => .error ("read config error: " ++ e)
      | .corrupt => .error "unmarshal config error: invalid JSON"
      | .json j =>
          match jsonToConfig j with
          | some conf => .ok conf
          | none => .error "unmarshal config error: cannot unmarshal into config"

/-- main.go `storeConfig`: marshal the config (which cannot fail for this
type), then write it to the config path; missing HOME or a failing write is
an error. -/
def storeConfig (fs : FS) (conf : Config) : Except String FS :=
  match configPath fs with
  | none => .error "HOME env var not present, cannot store config"
  | some _filename =>
      match fs.writeErr with
      | some e => .error ("write config error: " ++ e)
      | none => .ok { fs with gsshFile := FileData.json (configToJson conf) }

/-- an external effect `run` triggers, recorded in order of occurrence. -/
inductive Event where
  | compileCall (pattern : String)
  | projectCall
  | loadConfigCall
  | listCall
  | selectorCall (labels : List String) (cursor : Nat)
  | storeCall (conf : Config)
  | sshCall (cmds : List String)
  deriving DecidableEq

/-- results of the external collaborators of `run`: the regexp compiler,
`gcloud config get project`, `gcloud compute instances list` (error strings
carry the already formatted message for either the exec or the unmarshal
failure), the behaviour of `sort.Slice`, the interactive selector (from
initial cursor to chosen index), and the final ssh child process. -/
structure Env where
  compile : String → Except String (String → Bool)
  projectRes : Except String String
  listRes : Except String (List Instance)
  sortImpl : List Instance → List Instance
  selectorRes : Nat → Except String Nat
  sshRes : List String → Except String Unit

/-- tail of main.go `run`: store the selection (best effort, failures only
logged), compose `user@host`, build the ssh argument vector and run it. -/
def runHandoff (user : String) (args : List String) (env : Env)
    (selected : Instance) (ev : List Event) : Except String Unit × List Event :=
  let zone := selected.TrimZone
  let host := selected.Name
  let ev1 := ev ++ [Event.storeCall ⟨selected⟩]
  let host1 := if user ≠ "" then user ++ "@" ++ host else host
  let cmds := sshCmds zone host1 args
  (env.sshRes cmds, ev1 ++ [Event.sshCall cmds])

/-- middle of main.go `run`: filter the candidates, fail on zero matches,
auto-select a sole candidate, reject multiple matches for an exact host,
otherwise ask the interactive selector with the cursor preselected at the
previous instance. -/
def runSelect (hostname user : String) (args : List String) (env : Env)
    (prev : Instance) (filter : String) (filterExp : Regexp)
    (instances : List Instance) (ev : List Event) : Except String Unit × List Event :=
  match filterInstances instances filterExp with
  | [] => (.error (noVMsMsg filter), ev)
  | [single] => runHandoff user args env single ev
  | first :: second :: rest =>
      if hostname ≠ "" then
        (.error ("multiple VMs found for hostname \"" ++ hostname ++ "\""), ev)
      else
        let candidates := first :: second :: rest
        let labels := candidates.map instanceLabel
        let cursor := selectCursor candidates prev
        let ev2 := ev ++ [Event.selectorCall labels cursor]
        match env.selectorRes cursor with
        | .error e => (.error ("select instance error: selector error: " ++ e), ev2)
        | .ok idx =>
            match candidates[idx]? with
            | some sel => runHandoff user args env sel ev2
            | none => (.error "index out of range", ev2)

/-- instance acquisition of main.go `run`: in previous mode the remembered
instance is the sole candidate and the listing collaborator is skipped;
otherwise list, unmarshal and sort. -/
def runAcquire (hostname user : String) (usePrev : Bool) (args : List String)
    (env : Env) (prev : Instance) (filter : String) (filterExp : Regexp)
    (ev : List Event) : Except String Unit × List Event :=
  if usePrev then
    runSelect hostname user args env prev filter filterExp [prev] ev
  else
    match env.listRes with
    | .error e => (.error e, ev ++ [Event.listCall])
    | .ok instances =>
        runSelect hostname user args env prev filter filterExp
          (env.sortImpl instances) (ev ++ [Event.listCall])

/-- main.go `run`: reject `-h` together with `-f`, anchor the hostname into
a filter, compile it, resolve the project, load the previous selection
(fatal only in previous mode), then acquire, filter, select and hand off.
The second component collects the external effects in order. -/
def run (hostname filter user : String) (usePrev : Bool) (args : List String)
    (env : Env) (fs : FS) : Except String Unit × List Event :=
  if hostname ≠ "" ∧ filter ≠ "" then
    (.error "cannot use both -h and -f flags", [])
  else
    let filter1 := if hostname ≠ "" then "^" ++ hostname ++ "$" else filter
    match env.compile filter1 with
    | .error e => (.error ("invalid filter regex: " ++ e), [Event.compileCall filter1])
    | .ok m =>
        match env.projectRes with
        | .error e => (.error e, [Event.compileCall filter1, Event.projectCall])
        | .ok _project =>
            let ev := [Event.compileCall filter1, Event.projectCall, Event.loadConfigCall]
            match loadConfig fs with
            | .error e =>
                if usePrev then
                  (.error ("cannot connect to previous VM, load config error: " ++ e), ev)
                else
                  runAcquire hostname user usePrev args env ⟨"", ""⟩ filter1 ⟨filter1, m⟩ ev
            | .ok conf =>
                runAcquire hostname user usePrev args env conf.Previous filter1 ⟨filter1, m⟩ ev

namespace V1

/-- models Go `strings.HasPrefix s p` (is `p` a byte prefix of `s`); for
UTF-8 strings this agrees with the character-list prefix test. -/
def strStartsWith (s p : String) : Bool :=
  p.data.isPrefixOf s.data

/-- the filtering loop of the earlier prefix-filter variant of `run`
(second document of main.go): skip names without the filter as prefix; a
name equal to the filter replaces everything collected so far and stops the
loop; other prefix matches are appended. -/
def vmsFilterLoop (vmFilter : String) : List Instance → List String → List String
  | [], vms => vms
  | inst :: rest, vms =>
      if !(strStartsWith inst.Name vmFilter) then vmsFilterLoop vmFilter rest vms
      else if vmFilter = inst.Name then [inst.Name]
      else vmsFilterLoop vmFilter rest (vms ++ [inst.Name])

/-- candidate names of the prefix-filter variant, starting from an empty
accumulator as in the Go loop. -/
def vmsFilter (instances : List Instance) (vmFilter : String) : List String :=
  vmsFilterLoop vmFilter instances []

end V1

end Gssh

namespace Gssh

/-! ### Helper lemmas -/

theorem isPrefixOfSelf (l : List Char) : l.isPrefixOf l = true := by
  induction l with
  | nil => rfl
  | cons a t ih => simp [List.isPrefixOf, ih]

theorem strStartsWithSelf (s : String) : V1.strStartsWith s s = true :=
  isPrefixOfSelf s.data

theorem vmsFilterLoopExact (f : String) :
    ∀ (l : List Instance) (acc : List String),
      f ∈ namesOf l → V1.vmsFilterLoop f l acc = [f] := by
  intro l
  induction l with
  | nil => intro acc h; exact absurd h (by simp [namesOf])
  | cons i t ih =>
      intro acc h
      by_cases hname : f = i.Name
      · subst hname
        simp [V1.vmsFilterLoop, strStartsWithSelf]
      · have h' : f ∈ namesOf t := by
          simp only [namesOf, List.map_cons, List.mem_cons] at h
          rcases h with h | h
          · exact absurd h hname
          · simpa [namesOf] using h
        unfold V1.vmsFilterLoop
        cases hs : V1.strStartsWith i.Name f <;> simp [hs, hname] <;> exact ih _ h'

theorem selectCursorAuxNoMatch (p : String) :
    ∀ (l : List Instance) (i c : Nat),
      (∀ inst ∈ l, inst.Name ≠ p) → selectCursorAux p l i c = c := by
  intro l
  induction l with
  | nil => intro i c _; rfl
  | cons x t ih =>
      intro i c h
      unfold selectCursorAux
      rw [if_neg (h x (List.mem_cons_self x t))]
      exact ih _ _ (fun inst hm => h inst (List.mem_cons_of_mem _ hm))

theorem selectCursorAuxMatch (p : String) :
    ∀ (l : List Instance) (k : Nat) (hk : k < l.length), (namesOf l).Nodup →
      (l.get ⟨k, hk⟩).Name = p → ∀ (i c : Nat), selectCursorAux p l i c = i + k := by
  intro l
  induction l with
  | nil => intro k hk; simp at hk
  | cons x t ih =>
      intro k hk hnd hname i c
      simp only [namesOf, List.map_cons, List.nodup_cons] at hnd
      cases k with
      | zero =>
          have hx : x.Name = p := hname
          unfold selectCursorAux
          rw [if_pos hx]
          have hnone : ∀ inst ∈ t, inst.Name ≠ p := by
            intro inst hm heq
            exact hnd.1 (by rw [hx, ← heq]; exact List.mem_map_of_mem _ hm)
          rw [selectCursorAuxNoMatch p t (i + 1) i hnone]
          omega
      | succ k' =>
          have hk' : k' < t.length := by simpa using hk
          have hget : (t.get ⟨k', hk'⟩).Name = p := by simpa using hname
          have hxname : x.Name ≠ p := by
            intro hx
            exact hnd.1 (by rw [hx, ← hget]; exact List.mem_map_of_mem _ (List.get_mem t k' hk'))
          unfold selectCursorAux
          rw [if_neg hxname]
          rw [ih k' hk' hnd.2 hget (i + 1) c]
          omega

/-! ### C1 -/

/-- C1: in the prefix-filter variant, for an instance list with unique
names and a non-empty filter equal to the full name of exactly one
instance, the filtering loop produces that instance's name as the sole
candidate, regardless of any other instances having the filter as a proper
prefix of their names. -/
theorem prefixVariantExactNameSoleCandidate (instances : List Instance) (f : String)
    (hf : f ≠ "") (hnd : (namesOf instances).Nodup)
    (hone : (namesOf instances).count f = 1) :
    V1.vmsFilter instances f = [f] := by
  have hmem : f ∈ namesOf instances := List.count_pos_iff.mp (by omega)
  exact vmsFilterLoopExact f instances [] hmem

theorem prefixVariantExactNameSoleCandidateWitness :
    V1.vmsFilter [⟨"xa", "z0"⟩, ⟨"web-1", "z2"⟩, ⟨"web", "z1"⟩, ⟨"webz", "z3"⟩] "web" =
      ["web"] :=
  prefixVariantExactNameSoleCandidate _ _ (by decide) (by decide) (by decide)

/-! ### C4 -/

/-- C4: for a candidate list with more than one instance and unique names,
the interactive chooser's initial cursor equals the index of the candidate
whose name equals the remembered instance's name, and defaults to 0 when no
candidate's name matches it. -/
theorem chooserCursorPosition (instances : List Instance) (prev : Instance)
    (hlen : 1 < instances.length) (hnd : (namesOf instances).Nodup) :
    (∀ (k : Nat) (hk : k < instances.length),
        (instances.get ⟨k, hk⟩).Name = prev.Name → selectCursor instances prev = k) ∧
    ((∀ inst ∈ instances, inst.Name ≠ prev.Name) → selectCursor instances prev = 0) := by
  constructor
  · intro k hk hname
    unfold selectCursor
    rw [selectCursorAuxMatch prev.Name instances k hk hnd hname 0 0]
    omega
  · intro h
    exact selectCursorAuxNoMatch prev.Name instances 0 0 h

theorem chooserCursorPositionWitness :
    selectCursor [⟨"a", "z"⟩, ⟨"b", "z"⟩, ⟨"c", "z"⟩] ⟨"b", "w"⟩ = 1 :=
  (chooserCursorPosition [⟨"a", "z"⟩, ⟨"b", "z"⟩, ⟨"c", "z"⟩] ⟨"b", "w"⟩
      (by decide) (by decide)).1 1 (by decide) (by decide)

/-! ### C6 -/

/-- C6: filtering a non-empty instance list with an empty filter
specification returns the list unchanged, and an input sorted ascending by
name stays sorted ascending by name. -/
theorem emptyFilterUnchanged (l : List Instance) (m : String → Bool) (hne : l ≠ []) :
    filterInstances l ⟨"", m⟩ = l ∧
      (SortedByName l → SortedByName (filterInstances l ⟨"", m⟩)) := by
  have h : filterInstances l ⟨"", m⟩ = l := by
    unfold filterInstances
    rfl
  exact ⟨h, fun hs => h ▸ hs⟩

theorem emptyFilterUnchangedWitness :
    filterInstances [⟨"db-1", "z"⟩, ⟨"web-1", "z"⟩] ⟨"", fun _ => false⟩ =
        [⟨"db-1", "z"⟩, ⟨"web-1", "z"⟩] ∧
      (SortedByName [⟨"db-1", "z"⟩, ⟨"web-1", "z"⟩] →
        SortedByName (filterInstances [⟨"db-1", "z"⟩, ⟨"web-1", "z"⟩] ⟨"", fun _ => false⟩)) :=
  emptyFilterUnchanged _ _ (by decide)

/-! ### C7 -/

theorem jsonConfigRoundtrip (c : Config) : jsonToConfig (configToJson c) = some c := by
  cases c with
  | mk p =>
      cases p with
      | mk n z => rfl

/-- C7: storing a config whose Previous field is a given instance and
loading it back yields a Previous field equal to the instance written, name
and zone both preserved. -/
theorem configRoundtrip (fs : FS) (i : Instance) (fs' : FS)
    (h : storeConfig fs ⟨i⟩ = .ok fs') :
    loadConfig fs' = .ok ⟨i⟩ := by
  obtain ⟨home, gfile, werr⟩ := fs
  cases home with
  | none => exact absurd h (by simp [storeConfig, configPath])
  | some hm =>
      cases werr with
      | some e => exact absurd h (by simp [storeConfig, configPath])
      | none =>
          have h' : FS.mk (some hm) (FileData.json (configToJson ⟨i⟩)) none = fs' := by
            simpa [storeConfig, configPath] using h
          subst h'
          simp [loadConfig, configPath, jsonConfigRoundtrip]

theorem configRoundtripWitness :
    loadConfig ⟨some "/root", FileData.json (configToJson ⟨⟨"web-1", "zones/us-east1-b"⟩⟩),
        none⟩ = .ok ⟨⟨"web-1", "zones/us-east1-b"⟩⟩ :=
  configRoundtrip ⟨some "/root", FileData.absent, none⟩ ⟨"web-1", "zones/us-east1-b"⟩ _ rfl

/-! ### C10 -/

/-- C10: with a non-empty residual argument list the handoff appends a
literal "--" followed by one single argument joining all residual arguments
with single spaces, so the original argument boundaries are lost. -/
theorem handoffJoinsArgs (zone host : String) (args : List String) (h : args ≠ []) :
    sshCmds zone host args =
      ["gcloud", "compute", "ssh", "--zone=" ++ zone, host, "--",
        String.intercalate " " args] := by
  unfold sshCmds
  rw [if_pos (List.length_pos.mpr h)]
  rfl

theorem handoffJoinsArgsWitness :
    sshCmds "us-east1-b" "web-1" ["ls", "-la"] =
      ["gcloud", "compute", "ssh", "--zone=us-east1-b", "web-1", "--", "ls -la"] := by
  rw [handoffJoinsArgs "us-east1-b" "web-1" ["ls", "-la"] (by decide)]
  decide

end Gssh

namespace Gssh

/-! ### C8 -/

/-- C8: supplying both a non-empty hostname and a non-empty filter makes
`run` fail immediately with the input error, with no event recorded: the
regex is never compiled and no external collaborator is invoked. -/
theorem hostAndFilterConflict (hostname filter user : String) (usePrev : Bool)
    (args : List String) (env : Env) (fs : FS)
    (hh : hostname ≠ "") (hf : filter ≠ "") :
    run hostname filter user usePrev args env fs =
      (.error "cannot use both -h and -f flags", []) := by
  unfold run
  rw [if_pos ⟨hh, hf⟩]

theorem hostAndFilterConflictWitness :
    run "web-1" "web" "" false []
        ⟨fun _ => .ok (fun _ => true), .ok "proj", .ok [], id, fun _ => .ok 0,
          fun _ => .ok ()⟩ ⟨none, FileData.absent, none⟩ =
      (.error "cannot use both -h and -f flags", []) :=
  hostAndFilterConflict _ _ _ _ _ _ _ (by decide) (by decide)

/-! ### C3 -/

theorem noVMsMsgSplit (f : String) (h : f ≠ "") :
    noVMsMsg f = "no VMs found" ++ (" for filter '" ++ f ++ "'") := by
  unfold noVMsMsg
  rw [if_pos h, ← String.append_assoc, ← String.append_assoc]
  rfl

/-- C3: whenever filtering the acquired candidate list leaves zero
instances, `run` returns the fatal "no VMs found" error, whose message
contains "no VMs found" and, for a non-empty filter, the filter text. -/
theorem noVMsFatal (f user : String) (args : List String) (env : Env) (fs : FS)
    (m : String → Bool) (p : String) (l : List Instance)
    (hc : env.compile f = .ok m)
    (hp : env.projectRes = .ok p)
    (hl : env.listRes = .ok l)
    (hfil : filterInstances (env.sortImpl l) ⟨f, m⟩ = []) :
    (run "" f user false args env fs).fst = .error (noVMsMsg f) ∧
    ContainsStr (noVMsMsg f) "no VMs found" ∧
    (f ≠ "" → ContainsStr (noVMsMsg f) f) := by
  refine ⟨?_, ?_, ?_⟩
  · cases hload : loadConfig fs <;>
      simp [run, runAcquire, runSelect, hload, hc, hp, hl, hfil]
  · by_cases hf : f = ""
    · subst hf
      exact ⟨"", "", by decide⟩
    · refine ⟨"", " for filter '" ++ f ++ "'", ?_⟩
      rw [noVMsMsgSplit f hf]
      rfl
  · intro hf
    refine ⟨"no VMs found for filter '", "'", ?_⟩
    unfold noVMsMsg
    rw [if_pos hf]

theorem noVMsFatalWitness :
    (run "" "x" "" false []
        ⟨fun _ => .ok (fun _ => false), .ok "proj", .ok [⟨"a", "z"⟩], id,
          fun _ => .ok 0, fun _ => .ok ()⟩
        ⟨none, FileData.absent, none⟩).fst = .error (noVMsMsg "x") ∧
      ContainsStr (noVMsMsg "x") "no VMs found" ∧
      ("x" ≠ "" → ContainsStr (noVMsMsg "x") "x") :=
  noVMsFatal "x" "" [] _ _ _ _ _ rfl rfl rfl (by decide)

/-! ### C9 -/

/-- C9: in previous mode the name filter still applies to the single
remembered instance: when its name does not match a non-empty filter, `run`
fails with the "no VMs found" error and never reaches the ssh handoff. -/
theorem prevModeFilterApplies (f user : String) (args : List String) (env : Env) (fs : FS)
    (m : String → Bool) (conf : Config) (p : String)
    (hload : loadConfig fs = .ok conf)
    (hc : env.compile f = .ok m)
    (hp : env.projectRes = .ok p)
    (hf : f ≠ "")
    (hm : m conf.Previous.Name = false) :
    (run "" f user true args env fs).fst = .error (noVMsMsg f) ∧
    ∀ cmds, Event.sshCall cmds ∉ (run "" f user true args env fs).snd := by
  have hfil : filterInstances [conf.Previous] ⟨f, m⟩ = [] := by
    unfold filterInstances
    rw [if_neg hf]
    simp [List.filter, hm]
  have hrun : run "" f user true args env fs =
      (.error (noVMsMsg f),
        [Event.compileCall f, Event.projectCall, Event.loadConfigCall]) := by
    simp [run, runAcquire, runSelect, hload, hc, hp, hfil]
  rw [hrun]
  exact ⟨rfl, by intro cmds; simp⟩

theorem prevModeFilterAppliesWitness :
    (run "" "x" "" true []
        ⟨fun _ => .ok (fun _ => false), .ok "proj", .ok [], id, fun _ => .ok 0,
          fun _ => .ok ()⟩
        ⟨some "/home/u", FileData.absent, none⟩).fst = .error (noVMsMsg "x") :=
  (prevModeFilterApplies "x" "" []
    ⟨fun _ => .ok (fun _ => false), .ok "proj", .ok [], id, fun _ => .ok 0,
      fun _ => .ok ()⟩
    ⟨some "/home/u", FileData.absent, none⟩
    (fun _ => false) ⟨⟨"", ""⟩⟩ "proj" rfl rfl rfl (by decide) rfl).1

/-! ### C2 -/

/-- C2 counterexample: previous mode with an absent config file does not
fail: `loadConfig` maps an absent file to the zero config without error, so
`run` proceeds all the way to an ssh handoff for the zero-valued instance
and succeeds. -/
theorem prevAbsentConfigProceeds :
    (run "" "" "" true []
        ⟨fun _ => .ok (fun _ => true), .ok "proj", .ok [], id, fun _ => .ok 0,
          fun _ => .ok ()⟩
        ⟨some "/home/u", FileData.absent, none⟩) =
      (.ok (), [Event.compileCall "", Event.projectCall, Event.loadConfigCall,
        Event.storeCall ⟨⟨"", ""⟩⟩,
        Event.sshCall ["gcloud", "compute", "ssh", "--zone=.", ""]]) := by
  rfl

theorem listCallNotMemHandoff (user : String) (args : List String) (env : Env)
    (sel : Instance) (ev : List Event) (h : Event.listCall ∉ ev) :
    Event.listCall ∉ (runHandoff user args env sel ev).snd := by
  unfold runHandoff
  simp [List.mem_append, h]

theorem listCallNotMemSelect (hostname user : String) (args : List String)
    (env : Env) (prev : Instance) (filter : String) (filterExp : Regexp)
    (instances : List Instance) (ev : List Event) (h : Event.listCall ∉ ev) :
    Event.listCall ∉
      (runSelect hostname user args env prev filter filterExp instances ev).snd := by
  unfold runSelect
  split
  · exact h
  · exact listCallNotMemHandoff _ _ _ _ _ h
  · split
    · exact h
    · dsimp only
      split
      · simp [List.mem_append, h]
      · split
        · exact listCallNotMemHandoff _ _ _ _ _ (by simp [List.mem_append, h])
        · simp [List.mem_append, h]

theorem listCallNotMemAcquirePrev (hostname user : String) (args : List String)
    (env : Env) (prev : Instance) (filter : String) (filterExp : Regexp)
    (ev : List Event) (h : Event.listCall ∉ ev) :
    Event.listCall ∉
      (runAcquire hostname user true args env prev filter filterExp ev).snd := by
  unfold runAcquire
  rw [if_pos rfl]
  exact listCallNotMemSelect _ _ _ _ _ _ _ _ _ h

/-- C2 amended: in previous mode the instance-listing collaborator is never
invoked, and `run` fails at the config step exactly when `loadConfig`
itself returns an error (missing HOME, unreadable or unparseable file); an
absent config file is not such an error, see the counterexample. -/
theorem prevModeNoListing (hostname filter user : String) (args : List String)
    (env : Env) (fs : FS) :
    Event.listCall ∉ (run hostname filter user true args env fs).snd ∧
    (∀ e m p, loadConfig fs = .error e → hostname = "" → env.compile filter = .ok m →
      env.projectRes = .ok p →
      (run hostname filter user true args env fs).fst =
        .error ("cannot connect to previous VM, load config error: " ++ e)) := by
  constructor
  · unfold run
    split
    · simp
    · dsimp only
      split
      · simp
      · split
        · simp
        · split
          · rw [if_pos rfl]
            simp
          · exact listCallNotMemAcquirePrev _ _ _ _ _ _ _ _ (by simp)
  · intro e m p hload hh hc hp
    subst hh
    simp [run, hload, hc, hp]

theorem prevModeNoListingWitness :
    Event.listCall ∉ (run "" "" "" true []
        ⟨fun _ => .ok (fun _ => true), .ok "proj", .ok [], id, fun _ => .ok 0,
          fun _ => .ok ()⟩ ⟨none, FileData.absent, none⟩).snd ∧
      (run "" "" "" true []
          ⟨fun _ => .ok (fun _ => true), .ok "proj", .ok [], id, fun _ => .ok 0,
            fun _ => .ok ()⟩ ⟨none, FileData.absent, none⟩).fst =
        .error ("cannot connect to previous VM, load config error: " ++
          "HOME env var not present, cannot read config") :=
  ⟨(prevModeNoListing "" "" "" [] _ _).1,
    (prevModeNoListing "" "" "" [] _ _).2 _ _ _ rfl rfl rfl rfl⟩

end Gssh

namespace Gssh

/-! ### C5 -/

theorem sortedByNamePair (a b : Instance) (h : a.Name ≤ b.Name) : SortedByName [a, b] := by
  unfold SortedByName
  refine List.Pairwise.cons ?_ (List.pairwise_singleton _ _)
  intro x hx
  rw [List.mem_singleton] at hx
  subst hx
  exact h

theorem permEqOfMapEq {α β : Type _} (f : α → β) :
    ∀ (l₁ l₂ : List α), l₁.Perm l₂ → l₁.map f = l₂.map f → (l₁.map f).Nodup → l₁ = l₂ := by
  intro l₁
  induction l₁ with
  | nil =>
      intro l₂ hp _ _
      exact (hp.symm.eq_nil).symm
  | cons x t ih =>
      intro l₂ hp hm hnd
      cases l₂ with
      | nil => exact absurd hp.eq_nil (by simp)
      | cons y t₂ =>
          simp only [List.map_cons, List.cons.injEq] at hm
          obtain ⟨hfxy, hmt⟩ := hm
          simp only [List.map_cons, List.nodup_cons] at hnd
          obtain ⟨hnotin, hndt⟩ := hnd
          have hxy : x = y := by
            have hxmem : x ∈ y :: t₂ := hp.mem_iff.mp (List.mem_cons_self x t)
            rcases List.mem_cons.mp hxmem with h | h
            · exact h
            · rw [hmt] at hnotin
              exact absurd (List.mem_map_of_mem f h) hnotin
          subst hxy
          rw [ih t₂ hp.cons_inv hmt hndt]

theorem filterNameLenLe (n : String) :
    ∀ (l : List Instance), (namesOf l).Nodup →
      (l.filter (fun i => i.Name == n)).length ≤ 1 := by
  intro l
  induction l with
  | nil => intro _; simp
  | cons x t ih =>
      intro hnd
      simp only [namesOf, List.map_cons, List.nodup_cons] at hnd
      obtain ⟨hnotin, hndt⟩ := hnd
      by_cases hx : x.Name = n
      · have hfe : t.filter (fun i => i.Name == n) = [] := by
          rw [List.filter_eq_nil_iff]
          intro a ha hbeq
          apply hnotin
          have han : a.Name = n := by simpa using hbeq
          rw [hx, ← han]
          exact List.mem_map_of_mem _ ha
        rw [List.filter_cons_of_pos (by simp [hx]), hfe]
        simp
      · rw [List.filter_cons_of_neg (by simp [hx])]
        exact ih (by simpa [namesOf] using hndt)

theorem permEqOfShort {α : Type _} (l₁ l₂ : List α) (hp : l₁.Perm l₂)
    (h : l₂.length ≤ 1) : l₁ = l₂ := by
  cases l₂ with
  | nil => exact hp.eq_nil
  | cons y t =>
      cases t with
      | nil => exact List.perm_singleton.mp hp
      | cons z t' => simp at h

/-- C5 counterexample: the contract of Go `sort.Slice` (the sort
`sortInstances` performs) admits, for a two-instance input with equal
names, a sorted output permutation with the equal-named instances swapped:
stability is not part of what the code guarantees. -/
theorem sortSliceNotStable :
    SortSliceRel [⟨"a", "zone-1"⟩, ⟨"a", "zone-2"⟩] [⟨"a", "zone-2"⟩, ⟨"a", "zone-1"⟩] ∧
      ¬ StableByName [⟨"a", "zone-1"⟩, ⟨"a", "zone-2"⟩]
          [⟨"a", "zone-2"⟩, ⟨"a", "zone-1"⟩] := by
  constructor
  · exact ⟨by decide, sortedByNamePair _ _ (le_refl _)⟩
  · intro h
    exact absurd (h "a") (by decide)

/-- C5 amended: every output permitted by the `sort.Slice` contract is a
permutation of the input sorted ascending by name (case-sensitive); when
the input's names are pairwise distinct — the data-model invariant for a
listing — that output is moreover unique and equal-named stability holds
vacuously. -/
theorem sortInstancesSortedUnique (l out out' : List Instance)
    (h : SortSliceRel l out) (h' : SortSliceRel l out')
    (hnd : (namesOf l).Nodup) :
    SortedByName out ∧ out.Perm l ∧ StableByName l out ∧ out = out' := by
  obtain ⟨hperm, hsort⟩ := h
  obtain ⟨hperm', hsort'⟩ := h'
  refine ⟨hsort, hperm, ?_, ?_⟩
  · intro n
    exact permEqOfShort _ _ (hperm.filter _) (filterNameLenLe n l hnd)
  · have hpp : out.Perm out' := hperm.trans hperm'.symm
    have hlnd : (l.map (fun i => i.Name)).Nodup := by simpa [namesOf] using hnd
    have hmapnd : (out.map (fun i => i.Name)).Nodup :=
      ((hperm.map (fun i => i.Name)).symm).nodup hlnd
    have hs1 : (out.map (fun i => i.Name)).Sorted (fun a b => a ≤ b) :=
      (List.pairwise_map).mpr hsort
    have hs2 : (out'.map (fun i => i.Name)).Sorted (fun a b => a ≤ b) :=
      (List.pairwise_map).mpr hsort'
    have hmeq : out.map (fun i => i.Name) = out'.map (fun i => i.Name) :=
      List.eq_of_perm_of_sorted (hpp.map (fun i => i.Name)) hs1 hs2
    exact permEqOfMapEq _ out out' hpp hmeq hmapnd

theorem sortInstancesSortedUniqueWitness :
    SortedByName [⟨"a", "z2"⟩, ⟨"b", "z1"⟩] ∧
      ([⟨"a", "z2"⟩, ⟨"b", "z1"⟩] : List Instance).Perm [⟨"b", "z1"⟩, ⟨"a", "z2"⟩] ∧
      StableByName [⟨"b", "z1"⟩, ⟨"a", "z2"⟩] [⟨"a", "z2"⟩, ⟨"b", "z1"⟩] ∧
      ([⟨"a", "z2"⟩, ⟨"b", "z1"⟩] : List Instance) = [⟨"a", "z2"⟩, ⟨"b", "z1"⟩] :=
  sortInstancesSortedUnique [⟨"b", "z1"⟩, ⟨"a", "z2"⟩] [⟨"a", "z2"⟩, ⟨"b", "z1"⟩]
    [⟨"a", "z2"⟩, ⟨"b", "z1"⟩]
    ⟨by decide, sortedByNamePair _ _ (by rw [String.le_iff_toList_le]; decide)⟩
    ⟨by decide, sortedByNamePair _ _ (by rw [String.le_iff_toList_le]; decide)⟩
    (by decide)

end Gssh
